import Mathlib

/-!
Verification of the sample-resolution and augmentation pipeline of
training/utils/imagenet.py (class ImageNetDataset).

The Python source is embedded shallowly:
* the global-index resolver (lines 51-53) becomes the pure functions
  classOf / posInClass over the cumulative-sum list of per-class counts;
* the whole of __getitem__ becomes the function body, returning one of
  ok (a sample), resample (a fresh global index, modelling
  `return self[np.random.randint(len(self))]`), or raise (an uncaught
  Python exception);
* randomness is an explicit Rand record: each np.random.uniform(a, b)
  draw is modelled as a + t * (b - a) for a parameter t of the record,
  each np.random.randint(n) draw as j % n for a parameter j;
* the external collaborators (annotation parser, image loader, URL
  mapping, downloader) are fields of an Env record, with OSError-style
  failure modelled as Option.none and download success as Bool;
* real arithmetic on coordinates is modelled over the rationals.
-/

namespace SDFCF

/-- Element of a list of naturals at an index, 0 past the end. -/
def nth (l : List ℕ) (n : ℕ) : ℕ := (l[n]?).getD 0

lemma nth_cons_zero (x : ℕ) (xs : List ℕ) : nth (x :: xs) 0 = x := by
  simp [nth]

lemma nth_cons_succ (x : ℕ) (xs : List ℕ) (k : ℕ) : nth (x :: xs) (k + 1) = nth xs k := by
  simp [nth]

/-- np.searchsorted with side given as left: for a sorted list, the
smallest index whose element is at least v (the length if none is). -/
def searchsortedLeft (a : List ℕ) (v : ℕ) : ℕ :=
  match a with
  | [] => 0
  | x :: xs => if v ≤ x then 0 else searchsortedLeft xs v + 1

/-- Partial sum of the first k+1 entries, as produced by np.cumsum. -/
def cumAt (l : List ℕ) (k : ℕ) : ℕ := (l.take (k + 1)).sum

/-- The cumulative-count list self._idx_end = np.cumsum(synset_sizes). -/
def cumsum (l : List ℕ) : List ℕ := (List.range l.length).map (cumAt l)

/-- Line 51: cid = int(np.searchsorted(self._idx_end, index + 1)). -/
def classOf (sizes : List ℕ) (index : ℕ) : ℕ :=
  searchsortedLeft (cumsum sizes) (index + 1)

/-- Line 53: idx_in_class = index - (idx_end[cid-1] if cid >= 1 else 0). -/
def posInClass (sizes : List ℕ) (index : ℕ) : ℕ :=
  index - (if 1 ≤ classOf sizes index then nth (cumsum sizes) (classOf sizes index - 1) else 0)

lemma length_cumsum (l : List ℕ) : (cumsum l).length = l.length := by
  simp [cumsum]

lemma nth_cumsum (l : List ℕ) (k : ℕ) (hk : k < l.length) :
    nth (cumsum l) k = cumAt l k := by
  simp [cumsum, nth, List.getElem?_map, List.getElem?_range, hk]

lemma cumAt_mono (l : List ℕ) {j k : ℕ} (h : j ≤ k) : cumAt l j ≤ cumAt l k := by
  unfold cumAt
  have h1 : l.take (j + 1) = (l.take (k + 1)).take (j + 1) := by
    rw [List.take_take, min_eq_left (by omega)]
  rw [h1]
  conv_rhs => rw [← List.take_append_drop (j + 1) (l.take (k + 1))]
  rw [List.sum_append]
  exact Nat.le_add_right _ _

lemma cumAt_le_sum (l : List ℕ) (k : ℕ) : cumAt l k ≤ l.sum := by
  unfold cumAt
  conv_rhs => rw [← List.take_append_drop (k + 1) l]
  rw [List.sum_append]
  exact Nat.le_add_right _ _

lemma cumAt_last (l : List ℕ) (h : l ≠ []) : cumAt l (l.length - 1) = l.sum := by
  unfold cumAt
  have h1 : l.length - 1 + 1 = l.length := by
    cases l with
    | nil => exact absurd rfl h
    | cons a t => simp
  rw [h1, List.take_length]

lemma cumAt_succ (l : List ℕ) (k : ℕ) (hk : k + 1 < l.length) :
    cumAt l (k + 1) = cumAt l k + l[k + 1] := by
  unfold cumAt
  exact List.sum_take_succ l (k + 1) hk

lemma nth_le_cumAt (l : List ℕ) (k : ℕ) (hk : k < l.length) : nth l k ≤ cumAt l k := by
  have h1 := List.sum_take_succ l k hk
  unfold cumAt
  rw [h1]
  have h2 : nth l k = l[k] := by simp [nth, List.getElem?_eq_getElem hk]
  omega

lemma nth_pos_lt (l : List ℕ) (k : ℕ) (h : nth l k ≠ 0) : k < l.length := by
  by_contra hk
  push_neg at hk
  simp [nth, List.getElem?_eq_none hk] at h

lemma ss_le_length (a : List ℕ) (v : ℕ) : searchsortedLeft a v ≤ a.length := by
  induction a with
  | nil => simp [searchsortedLeft]
  | cons x xs ih =>
    simp only [searchsortedLeft, List.length_cons]
    split
    · omega
    · omega

lemma ss_lt_length (a : List ℕ) (v k : ℕ) (hk : k < a.length) (h : v ≤ nth a k) :
    searchsortedLeft a v < a.length := by
  induction a generalizing k with
  | nil => simp at hk
  | cons x xs ih =>
    simp only [searchsortedLeft, List.length_cons]
    split
    · omega
    · rename_i hx
      cases k with
      | zero => rw [nth_cons_zero] at h; omega
      | succ k =>
        have h1 : searchsortedLeft xs v < xs.length :=
          ih k (by simp at hk; omega) (by rwa [nth_cons_succ] at h)
        omega

lemma ss_spec_ge (a : List ℕ) (v : ℕ) (h : searchsortedLeft a v < a.length) :
    v ≤ nth a (searchsortedLeft a v) := by
  induction a with
  | nil => simp at h
  | cons x xs ih =>
    by_cases hx : v ≤ x
    · simp [searchsortedLeft, hx, nth_cons_zero]
    · simp only [searchsortedLeft, if_neg hx, List.length_cons] at h ⊢
      rw [nth_cons_succ]
      exact ih (by omega)

lemma ss_spec_lt (a : List ℕ) (v k : ℕ) (hk : k < searchsortedLeft a v) : nth a k < v := by
  induction a generalizing k with
  | nil => simp [searchsortedLeft] at hk
  | cons x xs ih =>
    by_cases hx : v ≤ x
    · simp [searchsortedLeft, hx] at hk
    · cases k with
      | zero => rw [nth_cons_zero]; omega
      | succ k =>
        simp only [searchsortedLeft, if_neg hx] at hk
        rw [nth_cons_succ]
        exact ih k (by omega)

lemma ss_mono (a : List ℕ) {v w : ℕ} (h : v ≤ w) :
    searchsortedLeft a v ≤ searchsortedLeft a w := by
  induction a with
  | nil => simp [searchsortedLeft]
  | cons x xs ih =>
    by_cases hw : w ≤ x
    · have hv : v ≤ x := le_trans h hw
      simp [searchsortedLeft, hv, hw]
    · by_cases hv : v ≤ x
      · simp only [searchsortedLeft, if_pos hv, if_neg hw]
        omega
      · simp only [searchsortedLeft, if_neg hv, if_neg hw]
        omega

lemma ss_eq (a : List ℕ) (v k : ℕ) (hk : k < a.length) (hge : v ≤ nth a k)
    (hlt : ∀ j, j < k → nth a j < v) : searchsortedLeft a v = k := by
  have h1 : searchsortedLeft a v < a.length := ss_lt_length a v k hk hge
  have h2 : searchsortedLeft a v ≤ k := by
    by_contra hc
    push_neg at hc
    exact absurd hge (not_le.mpr (ss_spec_lt a v k hc))
  have h3 : ¬ searchsortedLeft a v < k := by
    intro hc
    exact absurd (ss_spec_ge a v h1) (not_le.mpr (hlt _ hc))
  omega

lemma ss_eq_length (a : List ℕ) (v : ℕ) (h : ∀ k, k < a.length → nth a k < v) :
    searchsortedLeft a v = a.length := by
  have h1 := ss_le_length a v
  by_contra hc
  have h2 : searchsortedLeft a v < a.length := by omega
  exact absurd (ss_spec_ge a v h2) (not_le.mpr (h _ h2))

/-- C1 (counterexample): with per-class counts [1, 0, 1] (class 1 has an
empty annotation directory, as the constructor allows at lines 33-38),
the cumulative list is [1, 1, 2]; the resolved class of index
cumulative[1] - 1 = 0 is 0, not 1, and the resolved class of index
cumulative[0] = 1 is 2, not 1.  The boundary identities of the claim
fail for empty classes. -/
theorem classOf_boundary_cex :
    classOf [1, 0, 1] (nth (cumsum [1, 0, 1]) 1 - 1) = 0 ∧
    classOf [1, 0, 1] (nth (cumsum [1, 0, 1]) 0) = 2 ∧
    (0 : ℕ) ≠ 1 ∧ (2 : ℕ) ≠ 0 + 1 := by
  decide

/-- C1 (amended): for every index in [0, total_count), the resolved class
id is the smallest cid with cumulative[cid] >= index + 1, the position
within the class is index - cumulative[cid-1] (index itself when
cid = 0), and class_of is non-decreasing in the index; the boundary
identities class_of(cumulative[k]-1) = k and
class_of(cumulative[k]) = k+1 hold provided class k (respectively class
k+1, which must exist) has a nonzero count. -/
theorem resolver_amended (sizes : List ℕ) (index : ℕ) (h : index < sizes.sum) :
    (classOf sizes index < sizes.length ∧
     index + 1 ≤ nth (cumsum sizes) (classOf sizes index) ∧
     (∀ k, k < classOf sizes index → nth (cumsum sizes) k < index + 1)) ∧
    posInClass sizes index =
      index - (if 1 ≤ classOf sizes index
               then nth (cumsum sizes) (classOf sizes index - 1) else 0) ∧
    (∀ j, index ≤ j → classOf sizes index ≤ classOf sizes j) ∧
    (∀ k, nth sizes k ≠ 0 → classOf sizes (nth (cumsum sizes) k - 1) = k) ∧
    (∀ k, k + 1 < sizes.length → nth sizes (k + 1) ≠ 0 →
       classOf sizes (nth (cumsum sizes) k) = k + 1) := by
  have hne : sizes ≠ [] := by
    intro he
    rw [he] at h
    simp at h
  have hlen : 0 < sizes.length := List.length_pos.mpr hne
  have hlast : nth (cumsum sizes) (sizes.length - 1) = sizes.sum := by
    rw [nth_cumsum _ _ (by omega), cumAt_last _ hne]
  refine ⟨⟨?_, ?_, ?_⟩, rfl, ?_, ?_, ?_⟩
  · have h1 : classOf sizes index < (cumsum sizes).length :=
      ss_lt_length _ _ (sizes.length - 1) (by rw [length_cumsum]; omega) (by omega)
    rwa [length_cumsum] at h1
  · exact ss_spec_ge _ _ (by
      rw [length_cumsum]
      have h1 : classOf sizes index < (cumsum sizes).length :=
        ss_lt_length _ _ (sizes.length - 1) (by rw [length_cumsum]; omega) (by omega)
      rwa [length_cumsum] at h1)
  · intro k hk
    exact ss_spec_lt _ _ _ hk
  · intro j hj
    exact ss_mono _ (by omega)
  · intro k hk
    have hklt : k < sizes.length := nth_pos_lt _ _ hk
    have hc : nth (cumsum sizes) k = cumAt sizes k := nth_cumsum _ _ hklt
    have hpos : 1 ≤ cumAt sizes k := by
      have h1 := nth_le_cumAt sizes k hklt
      omega
    have hv : nth (cumsum sizes) k - 1 + 1 = cumAt sizes k := by omega
    unfold classOf
    rw [hv]
    apply ss_eq _ _ _ (by rw [length_cumsum]; omega) (by rw [nth_cumsum _ _ hklt])
    intro j hj
    rw [nth_cumsum _ _ (by omega)]
    rcases Nat.exists_eq_add_of_lt hj with ⟨m, hm⟩
    have hstep : cumAt sizes k = cumAt sizes (k - 1) + sizes[k] := by
      rcases Nat.exists_eq_succ_of_ne_zero (by omega : k ≠ 0) with ⟨p, hp⟩
      subst hp
      simpa using cumAt_succ sizes p hklt
    have hj2 : cumAt sizes j ≤ cumAt sizes (k - 1) := cumAt_mono _ (by omega)
    have hk2 : nth sizes k = sizes[k] := by
      simp [nth, List.getElem?_eq_getElem hklt]
    omega
  · intro k hk1 hk2
    have hc : nth (cumsum sizes) k = cumAt sizes k := nth_cumsum _ _ (by omega)
    unfold classOf
    rw [hc]
    apply ss_eq _ _ _ (by rw [length_cumsum]; omega)
    · rw [nth_cumsum _ _ hk1, cumAt_succ sizes k hk1]
      have h2 : nth sizes (k + 1) = sizes[k + 1] := by
        simp [nth, List.getElem?_eq_getElem hk1]
      omega
    · intro j hj
      rw [nth_cumsum _ _ (by omega)]
      have := cumAt_mono sizes (by omega : j ≤ k)
      omega

/-- Concrete application of resolver_amended with counts [2, 3] at
index 3 (a member of class 1). -/
theorem resolver_amended_apply :
    3 < List.sum [2, 3] ∧ classOf [2, 3] 3 < List.length [2, 3] := by
  exact ⟨by decide, (resolver_amended [2, 3] 3 (by decide)).1.1⟩

/-- A decoded image: PIL exposes width and height; bombs records whether
operating on the pixel data raises Image.DecompressionBombError (the
error the source handles at the crop on line 134-136); mirrored records
whether the in-memory picture has been flipped by ImageOps.mirror. -/
structure Image where
  width : ℚ
  height : ℚ
  bombs : Bool
  mirrored : Bool
deriving DecidableEq

/-- One object record of an XML file: name (a WordNet id) and the box. -/
structure ObjAnn where
  name : String
  xmin : ℚ
  xmax : ℚ
  ymin : ℚ
  ymax : ℚ
deriving DecidableEq

/-- One parsed XML file: folder, filename and the object list. -/
structure ImgAnn where
  folder : String
  filename : String
  objects : List ObjAnn
deriving DecidableEq

/-- A box as manipulated by lines 104-126 (coordinate variables). -/
structure Box where
  xmin : ℚ
  xmax : ℚ
  ymin : ℚ
  ymax : ℚ
deriving DecidableEq

/-- A crop rectangle in PIL order (left, upper, right, lower). -/
structure Rect where
  xmin : ℚ
  ymin : ℚ
  xmax : ℚ
  ymax : ℚ
deriving DecidableEq

/-- An output patch: the crop rectangle used, the rotation angle applied
before cropping (0 for anchor and negative), and whether the source
picture was mirrored when cropped.  The pluggable transform collaborator
is out of scope, so a patch stands for its transformed tensor. -/
structure Patch where
  rect : Rect
  angle : ℚ
  fromMirrored : Bool
deriving DecidableEq

/-- The 6-tuple returned on line 165-170. -/
structure Sample where
  anchor : Patch
  pos : Patch
  neg : Patch
  labels : List ℕ
  bbox : ℚ × ℚ × ℚ × ℚ
  bbox2 : ℚ × ℚ × ℚ × ℚ
deriving DecidableEq

/-- Uncaught Python exceptions the body can produce. -/
inductive Err where
  | indexError
  | valueError
  | zeroDivisionError
deriving DecidableEq

/-- Result of one execution of the __getitem__ body: a returned sample,
a re-entrant resample (return self[j]), or an uncaught exception. -/
inductive StepResult where
  | ok (s : Sample)
  | resample (j : ℕ)
  | raise (e : Err)
deriving DecidableEq

/-- The random draws one execution of the body may consume.  Every
np.random.uniform(a, b) value is modelled as a + t * (b - a) with t the
corresponding field (in [0, 1] for a faithful draw); every
np.random.randint(n) value as j % n with j the corresponding field.
flip models np.random.randint(0, 2) on line 121. -/
structure Rand where
  u : ℚ
  rotT : ℚ
  negU : ℚ
  negT1 : ℚ
  negT2 : ℚ
  flip : Bool
  jNoObj : ℕ
  jDownloadFail : ℕ
  jRetryFail : ℕ
  jBadBox : ℕ
  jCropFail : ℕ

/-- The dataset environment: the synset table, the per-class counts
found at construction, and the external collaborators.  annots models
the sorted annotation-file listing plus read_annotation as a function of
(class id, index in class); localImage models self._loader on the
initial filesystem (none = OSError); downloadedImage models the loader
after a successful download_img wrote the file; mappingOk models whether
read_web_file succeeds for the synset URL-mapping; mappingEntries the
parsed two-element lines; downloadOk the Bool returned by download_img. -/
structure Env where
  synsets : List String
  synsetSizes : List ℕ
  annots : ℕ → ℕ → ImgAnn
  localImage : String → Option Image
  downloadedImage : String → Option Image
  mappingOk : String → Bool
  mappingEntries : String → List (String × String)
  downloadOk : String → Bool

/-- Line 172-173: len(self) = sum(synset_sizes). -/
def Env.total (env : Env) : ℕ := env.synsetSizes.sum

/-- self.num_classes = len(self.synsets). -/
def Env.numClasses (env : Env) : ℕ := env.synsets.length

/-- np.random.randint(len(self)): raises ValueError when the dataset is
empty, else yields a fresh uniformly drawn global index. -/
def randint (env : Env) (j : ℕ) : StepResult :=
  if env.total = 0 then .raise .valueError else .resample (j % env.total)

/-- The path osp.join(image_dir(folder), filename + '.JPEG') of line 71,
with the constant data-directory prefix dropped. -/
def imgPath (ann : ImgAnn) : String := ann.folder ++ "/" ++ ann.filename

def mirror (img : Image) : Image := { img with mirrored := !img.mirrored }

/-- Line 108: target_width = target_xmax - target_xmin. -/
def wOf (o : ObjAnn) : ℚ := o.xmax - o.xmin

/-- Line 109: target_height = target_ymax - target_ymin. -/
def hOf (o : ObjAnn) : ℚ := o.ymax - o.ymin

/-- Line 112: target_xmid = (target_xmin + target_xmax) * 0.5. -/
def xmidOf (o : ObjAnn) : ℚ := (o.xmin + o.xmax) * (1 / 2)

/-- Line 113: target_ymid = (target_ymin + target_ymax) * 0.5. -/
def ymidOf (o : ObjAnn) : ℚ := (o.ymin + o.ymax) * (1 / 2)

/-- Line 114: target_side_len = max(target_width, target_height). -/
def sideOf (o : ObjAnn) : ℚ := max (wOf o) (hOf o)

/-- Line 115: sf_min = max([7. / target_width, 7. / target_height]). -/
def sfMinOf (o : ObjAnn) : ℚ := max (7 / wOf o) (7 / hOf o)

/-- Lines 116-117: sf_max as written in the source. -/
def sfMaxOf (o : ObjAnn) (W H : ℚ) : ℚ :=
  min (min (xmidOf o) (W - xmidOf o) * 2 / sideOf o)
      (min (ymidOf o) (H - ymidOf o) * 2 / sideOf o)

/-- The value np.random.uniform(lo, hi) yields when the unit draw is t. -/
def runiform (lo hi t : ℚ) : ℚ := lo + t * (hi - lo)

/-- Line 118, lower argument: max(min(0.75, sf_max), sf_min). -/
def scaleLo (o : ObjAnn) (W H : ℚ) : ℚ := max (min (3 / 4) (sfMaxOf o W H)) (sfMinOf o)

/-- Line 118, upper argument: min(1.25, sf_max). -/
def scaleHi (o : ObjAnn) (W H : ℚ) : ℚ := min (5 / 4) (sfMaxOf o W H)

/-- Line 118: scale_factor = np.random.uniform(scaleLo, scaleHi). -/
def scaleOf (o : ObjAnn) (W H t : ℚ) : ℚ := runiform (scaleLo o W H) (scaleHi o W H) t

def objBox (o : ObjAnn) : Box := ⟨o.xmin, o.xmax, o.ymin, o.ymax⟩

/-- Lines 123-126 exactly as executed: the four sequential assignments,
each reading the variables as already rebound by the earlier ones. -/
def flipBox (b : Box) (W H : ℚ) : Box :=
  let xmin1 := W - b.xmax
  let xmax1 := W - xmin1
  let ymin1 := H - b.ymax
  let ymax1 := H - ymin1
  ⟨xmin1, xmax1, ymin1, ymax1⟩

/-- Lines 129-133: the square crop rectangle of side P centred at the
midpoint computed on lines 112-113 (xmax/ymax as xmin/ymin plus size). -/
def patchRect (xmid ymid P : ℚ) : Rect :=
  ⟨xmid - P * (1 / 2), ymid - P * (1 / 2),
   xmid - P * (1 / 2) + P, ymid - P * (1 / 2) + P⟩

/-- Lines 146-149: the bounding-box regression target, from the current
box coordinate variables b, the widths of lines 108-109, the crop
rectangle and the patch size P. -/
def bboxTarget (b : Box) (w h : ℚ) (r : Rect) (P : ℚ) : ℚ × ℚ × ℚ × ℚ :=
  ((b.xmin + b.xmax - r.xmin - r.xmax) * (1 / 2) / P,
   (b.ymin + b.ymax - r.ymin - r.ymax) * (1 / 2) / P,
   w / P - 1,
   h / P - 1)

/-- What _retrieve_img_from_web (lines 73-89) evaluates to: the mapping
fetch failing makes it return the value of a recursive resample (a
6-tuple, always truthy, itself discarded by the caller), otherwise the
Bool of download_img for the first matching filename, or False when no
line matches. -/
inductive RetrieveResult where
  | sampleTuple
  | flag (b : Bool)
deriving DecidableEq

def retrieve (env : Env) (synset filename : String) : RetrieveResult :=
  if env.mappingOk synset then
    match (env.mappingEntries synset).find? (fun p => p.1 == filename) with
    | some p => .flag (env.downloadOk p.2)
    | none => .flag false
  else .sampleTuple

/-- Python truthiness of the value returned by _retrieve_img_from_web
(line 96): a nonempty tuple is truthy, a Bool is itself. -/
def truthy : RetrieveResult → Bool
  | .sampleTuple => true
  | .flag b => b

/-- Whether the retrieval wrote the image file (download_img succeeded). -/
def downloadedF : RetrieveResult → Bool
  | .flag true => true
  | _ => false

/-- Lines 112-170 after the degenerate-box guard, on success: the sample
actually returned.  img is the image the scale range was computed from
(lines 115-118); imgC is the image the patches are cropped from (the
possibly mirrored img, or the reload of line 140 after a decompression
bomb, which is never mirrored). -/
def mkOk (env : Env) (r : Rand) (cid : ℕ) (o : ObjAnn) (img imgC : Image) : Sample :=
  let W := img.width
  let H := img.height
  let sf := scaleOf o W H r.u
  let P := sideOf o * sf
  let b1 := if r.flip then flipBox (objBox o) W H else objBox o
  let rect := patchRect (xmidOf o) (ymidOf o) P
  let labels := (List.replicate env.numClasses 0).set cid 1
  let negP := sideOf o *
    runiform (max (min (1 / 2) (sfMaxOf o W H)) (sfMinOf o)) (min (3 / 2) (sfMaxOf o W H)) r.negU
  let negX := min (max (rect.xmin + P * runiform (-(1 / 2)) (1 / 2) r.negT1) 0) (imgC.width - negP)
  let negY := min (max (rect.ymin + P * runiform (-(1 / 2)) (1 / 2) r.negT2) 0) (imgC.height - negP)
  { anchor := ⟨rect, 0, imgC.mirrored⟩
    pos := ⟨rect, runiform (-15) 15 r.rotT, imgC.mirrored⟩
    neg := ⟨⟨negX, negY, negX + negP, negY + negP⟩, 0, imgC.mirrored⟩
    labels := labels
    bbox := bboxTarget b1 (wOf o) (hOf o) rect P
    bbox2 := bboxTarget b1 (wOf o) (hOf o) rect P }

/-- The tail of the success path: Python raises ZeroDivisionError at
line 146 when the patch size is zero, else returns the tuple. -/
def finishOk (env : Env) (r : Rand) (cid : ℕ) (o : ObjAnn) (img imgC : Image) : StepResult :=
  if sideOf o * scaleOf o img.width img.height r.u = 0 then .raise .zeroDivisionError
  else .ok (mkOk env r cid o img imgC)

/-- Lines 134-170: the crop attempt and what follows.  imgF is the
possibly mirrored image in hand at line 134; on a decompression bomb the
handler of lines 137-143 re-fetches, reloads from disk (an unmirrored
picture) and retries the crop, resampling on any further failure. -/
def cropStage (env : Env) (r : Rand) (cid : ℕ) (o : ObjAnn) (img imgF : Image)
    (synset filename path : String) (dl : Bool) : StepResult :=
  if imgF.bombs then
    match (if dl || downloadedF (retrieve env synset filename)
           then env.downloadedImage path else env.localImage path) with
    | none => randint env r.jCropFail
    | some img2 =>
      if img2.bombs then randint env r.jCropFail
      else finishOk env r cid o img img2
  else finishOk env r cid o img imgF

/-- Lines 104-170: the augmentation stage.  dl records whether the image
in hand was already fetched by a successful download (so that the reload
of line 140 sees the downloaded file). -/
def augment (env : Env) (r : Rand) (cid : ℕ) (synset : String) (ann : ImgAnn)
    (o : ObjAnn) (img : Image) (path : String) (dl : Bool) : StepResult :=
  if wOf o < 7 ∨ hOf o < 7 then randint env r.jBadBox
  else cropStage env r cid o img (if r.flip then mirror img else img) synset ann.filename path dl

/-- The annotation resolved for a global index (lines 51-55). -/
def annOf (env : Env) (index : ℕ) : ImgAnn :=
  env.annots (classOf env.synsetSizes index) (posInClass env.synsetSizes index)

/-- One execution of the body of __getitem__ (lines 49-170). -/
def body (env : Env) (r : Rand) (index : ℕ) : StepResult :=
  match env.synsets[classOf env.synsetSizes index]? with
  | none => .raise .indexError
  | some synset =>
    let ann := annOf env index
    match ann.objects.find? (fun o => o.name == synset) with
    | none => randint env r.jNoObj
    | some o =>
      let path := imgPath ann
      match env.localImage path with
      | some img => augment env r (classOf env.synsetSizes index) synset ann o img path false
      | none =>
        let ret := retrieve env synset ann.filename
        if truthy ret then
          match (if downloadedF ret then env.downloadedImage path else env.localImage path) with
          | none => randint env r.jRetryFail
          | some img =>
            augment env r (classOf env.synsetSizes index) synset ann o img path (downloadedF ret)
        else randint env r.jDownloadFail

/-- The synset resolved for a global index (line 52). -/
def synsetOf (env : Env) (index : ℕ) : Option String :=
  env.synsets[classOf env.synsetSizes index]?

/-- The object annotation matched on lines 62-66 for a global index. -/
def matchedObj (env : Env) (index : ℕ) : Option ObjAnn :=
  match synsetOf env index with
  | none => none
  | some synset => (annOf env index).objects.find? (fun o => o.name == synset)

/-- Result of running __getitem__ with a recursion budget. -/
inductive RunResult where
  | ok (s : Sample)
  | raise (e : Err)
  | fuelOut
deriving DecidableEq

/-- Iterating the body along the resample re-entries, consuming one unit
of fuel and one Rand record per execution. -/
def getitemAux (env : Env) (stream : ℕ → Rand) : ℕ → ℕ → ℕ → RunResult
  | 0, _, _ => .fuelOut
  | fuel + 1, k, index =>
    match body env (stream k) index with
    | .ok s => .ok s
    | .raise e => .raise e
    | .resample j => getitemAux env stream fuel (k + 1) j

/-- __getitem__ under a recursion budget (the source has no cap). -/
def getitem (env : Env) (stream : ℕ → Rand) (fuel index : ℕ) : RunResult :=
  getitemAux env stream fuel 0 index

/-- A box lying inside an image, as annotation data is meant to. -/
def boxIn (o : ObjAnn) (img : Image) : Prop :=
  0 ≤ o.xmin ∧ o.xmax ≤ img.width ∧ 0 ≤ o.ymin ∧ o.ymax ≤ img.height

/-- Environment sanity: the two parallel tables of the constructor have
equal length, and every object of every annotation lies inside any image
its file path can load to (locally or after download). -/
def EnvWF (env : Env) : Prop :=
  env.synsetSizes.length = env.synsets.length ∧
  ∀ cid pos img,
    (env.localImage (imgPath (env.annots cid pos)) = some img ∨
     env.downloadedImage (imgPath (env.annots cid pos)) = some img) →
    ∀ o, o ∈ (env.annots cid pos).objects → boxIn o img

/-- A faithful uniform draw has its unit parameter in [0, 1]. -/
def RandWF (r : Rand) : Prop := 0 ≤ r.u ∧ r.u ≤ 1

def StreamWF (stream : ℕ → Rand) : Prop := ∀ n, RandWF (stream n)

/-- A well-formed output tuple: the label vector is one-hot of length
num_classes and the two bounding-box targets coincide. -/
def WellFormed (env : Env) (s : Sample) : Prop :=
  (∃ c : Fin env.numClasses, s.labels = (List.replicate env.numClasses 0).set c.1 1) ∧
  s.bbox = s.bbox2

lemma scale_pos (o : ObjAnn) (W H t : ℚ) (hw : 7 ≤ wOf o) (hh : 7 ≤ hOf o)
    (hx0 : 0 ≤ o.xmin) (hxW : o.xmax ≤ W) (hy0 : 0 ≤ o.ymin) (hyH : o.ymax ≤ H)
    (ht0 : 0 ≤ t) (ht1 : t ≤ 1) : 0 < sideOf o * scaleOf o W H t := by
  have hw0 : 0 < wOf o := by linarith
  have hh0 : 0 < hOf o := by linarith
  have hside : 0 < sideOf o := lt_of_lt_of_le hw0 (le_max_left _ _)
  have hxm1 : 0 < xmidOf o := by
    unfold xmidOf
    unfold wOf at hw
    linarith
  have hxm2 : 0 < W - xmidOf o := by
    unfold xmidOf
    unfold wOf at hw
    linarith
  have hym1 : 0 < ymidOf o := by
    unfold ymidOf
    unfold hOf at hh
    linarith
  have hym2 : 0 < H - ymidOf o := by
    unfold ymidOf
    unfold hOf at hh
    linarith
  have hsfmax : 0 < sfMaxOf o W H := by
    unfold sfMaxOf
    apply lt_min
    · exact div_pos (mul_pos (lt_min hxm1 hxm2) (by norm_num)) hside
    · exact div_pos (mul_pos (lt_min hym1 hym2) (by norm_num)) hside
  have hsfmin : 0 < sfMinOf o :=
    lt_of_lt_of_le (div_pos (by norm_num) hw0) (le_max_left _ _)
  have hlo : 0 < scaleLo o W H := lt_of_lt_of_le hsfmin (le_max_right _ _)
  have hhi : 0 < scaleHi o W H := lt_min (by norm_num) hsfmax
  have hsf : 0 < scaleOf o W H t := by
    unfold scaleOf runiform
    rcases le_total (scaleLo o W H) (scaleHi o W H) with hc | hc
    · nlinarith
    · nlinarith
  exact mul_pos hside hsf

/-- The invariant one body execution preserves: no uncaught exception, a
resample target inside [0, total), a well-formed returned tuple. -/
def StepOk (env : Env) (st : StepResult) : Prop :=
  (∀ e, st ≠ .raise e) ∧ (∀ j, st = .resample j → j < env.total) ∧
  (∀ s, st = .ok s → WellFormed env s)

lemma randint_ok (env : Env) (j : ℕ) (htot : env.total ≠ 0) :
    StepOk env (randint env j) := by
  unfold StepOk randint
  rw [if_neg htot]
  refine ⟨fun e => by simp, fun k hk => ?_, fun s hs => by simp at hs⟩
  have hk2 : j % env.total = k := by
    simpa using hk
  subst hk2
  exact Nat.mod_lt _ (Nat.pos_of_ne_zero htot)

lemma finishOk_ok (env : Env) (r : Rand) (cid : ℕ) (o : ObjAnn) (img imgC : Image)
    (hcid : cid < env.numClasses)
    (hP : sideOf o * scaleOf o img.width img.height r.u ≠ 0) :
    StepOk env (finishOk env r cid o img imgC) := by
  unfold StepOk finishOk
  rw [if_neg hP]
  refine ⟨fun e => by simp, fun k hk => by simp at hk, fun s hs => ?_⟩
  have hs2 : mkOk env r cid o img imgC = s := by
    simpa using hs
  subst hs2
  refine ⟨⟨⟨cid, hcid⟩, ?_⟩, ?_⟩
  · simp [mkOk]
  · simp [mkOk]

lemma cropStage_ok (env : Env) (r : Rand) (cid : ℕ) (o : ObjAnn) (img imgF : Image)
    (synset filename path : String) (dl : Bool)
    (htot : env.total ≠ 0) (hcid : cid < env.numClasses)
    (hP : sideOf o * scaleOf o img.width img.height r.u ≠ 0) :
    StepOk env (cropStage env r cid o img imgF synset filename path dl) := by
  unfold cropStage
  split
  · split
    · exact randint_ok env r.jCropFail htot
    · split
      · exact randint_ok env r.jCropFail htot
      · exact finishOk_ok env r cid o img _ hcid hP
  · exact finishOk_ok env r cid o img _ hcid hP

lemma augment_ok (env : Env) (r : Rand) (cid : ℕ) (synset : String) (ann : ImgAnn)
    (o : ObjAnn) (img : Image) (path : String) (dl : Bool)
    (htot : env.total ≠ 0) (hcid : cid < env.numClasses) (hr : RandWF r)
    (hbnd : ∀ img2, (env.localImage path = some img2 ∨ env.downloadedImage path = some img2) →
      boxIn o img2)
    (himg : env.localImage path = some img ∨ env.downloadedImage path = some img) :
    StepOk env (augment env r cid synset ann o img path dl) := by
  have hb : boxIn o img := hbnd img himg
  obtain ⟨hbx0, hbxW, hby0, hbyH⟩ := hb
  obtain ⟨ht0, ht1⟩ := hr
  unfold augment
  split
  · exact randint_ok env r.jBadBox htot
  · rename_i hgood
    push_neg at hgood
    have hP : sideOf o * scaleOf o img.width img.height r.u ≠ 0 :=
      ne_of_gt (scale_pos o img.width img.height r.u hgood.1 hgood.2 hbx0 hbxW hby0 hbyH ht0 ht1)
    exact cropStage_ok env r cid o img _ synset ann.filename path dl htot hcid hP

lemma sizes_len_pos (env : Env) (index : ℕ) (hidx : index < env.total) :
    0 < env.synsetSizes.length := by
  rcases List.eq_nil_or_concat env.synsetSizes with h | h
  · unfold Env.total at hidx
    rw [h] at hidx
    simp at hidx
  · rcases h with ⟨l, a, h⟩
    rw [h]
    simp

lemma classOf_lt (env : Env) (index : ℕ) (hidx : index < env.total) :
    classOf env.synsetSizes index < env.synsetSizes.length := by
  have hlen := sizes_len_pos env index hidx
  have hlast : nth (cumsum env.synsetSizes) (env.synsetSizes.length - 1) =
      env.synsetSizes.sum := by
    rw [nth_cumsum _ _ (by omega), cumAt_last]
    intro he
    rw [he] at hlen
    simp at hlen
  have h1 : classOf env.synsetSizes index < (cumsum env.synsetSizes).length := by
    apply ss_lt_length _ _ (env.synsetSizes.length - 1)
    · rw [length_cumsum]
      omega
    · rw [hlast]
      unfold Env.total at hidx
      omega
  rwa [length_cumsum] at h1

lemma body_ok (env : Env) (r : Rand) (index : ℕ) (hwf : EnvWF env) (hr : RandWF r)
    (hidx : index < env.total) : StepOk env (body env r index) := by
  obtain ⟨hlen, hbox⟩ := hwf
  have htot : env.total ≠ 0 := by omega
  have hcid : classOf env.synsetSizes index < env.numClasses := by
    have := classOf_lt env index hidx
    unfold Env.numClasses
    omega
  have hsome : env.synsets[classOf env.synsetSizes index]? =
      some env.synsets[classOf env.synsetSizes index] :=
    List.getElem?_eq_getElem hcid
  unfold body
  rw [hsome]
  simp only
  cases hfind : (annOf env index).objects.find?
      (fun o => o.name == env.synsets[classOf env.synsetSizes index]) with
  | none => exact randint_ok env r.jNoObj htot
  | some o =>
    have hmem : o ∈ (annOf env index).objects := List.mem_of_find?_eq_some hfind
    have hbnd : ∀ img2,
        (env.localImage (imgPath (annOf env index)) = some img2 ∨
         env.downloadedImage (imgPath (annOf env index)) = some img2) → boxIn o img2 :=
      fun img2 h2 => hbox _ _ img2 h2 o hmem
    cases hloc : env.localImage (imgPath (annOf env index)) with
    | some img =>
      exact augment_ok env r _ _ _ o img _ false htot hcid hr hbnd (Or.inl hloc)
    | none =>
      dsimp only
      split
      · split
        · exact randint_ok env r.jRetryFail htot
        · rename_i img hdl
          split at hdl
          · exact augment_ok env r _ _ _ o img _ _ htot hcid hr hbnd (Or.inr hdl)
          · exact absurd hdl (by simp)
      · exact randint_ok env r.jDownloadFail htot

lemma getitemAux_ok (env : Env) (stream : ℕ → Rand) (hwf : EnvWF env)
    (hs : StreamWF stream) (fuel : ℕ) :
    ∀ k index, index < env.total →
      (∀ e, getitemAux env stream fuel k index ≠ .raise e) ∧
      (∀ s, getitemAux env stream fuel k index = .ok s → WellFormed env s) := by
  induction fuel with
  | zero =>
    intro k index _
    exact ⟨fun e => by simp [getitemAux], fun s hs2 => by simp [getitemAux] at hs2⟩
  | succ fuel ih =>
    intro k index hidx
    have hb := body_ok env (stream k) index hwf (hs k) hidx
    unfold getitemAux
    cases hbody : body env (stream k) index with
    | ok s =>
      refine ⟨fun e => by simp, fun s2 hs2 => ?_⟩
      have : s = s2 := by simpa using hs2
      subst this
      exact hb.2.2 s hbody
    | raise e => exact absurd hbody (hb.1 e)
    | resample j => exact ih (k + 1) j (hb.2.1 j hbody)

/-- C2: for every index in [0, total_count), running __getitem__ never
surfaces an exception: every recoverable failure becomes a resample of a
fresh uniformly drawn global index (body_ok shows each resample target
lies in [0, total_count)), and whenever the run returns within its
recursion budget the caller receives a well-formed 6-tuple (one-hot
label vector, duplicated bounding-box target). -/
theorem getitem_total (env : Env) (stream : ℕ → Rand) (hwf : EnvWF env)
    (hs : StreamWF stream) (fuel index : ℕ) (hidx : index < env.total) :
    (∀ e, getitem env stream fuel index ≠ .raise e) ∧
    (∀ s, getitem env stream fuel index = .ok s → WellFormed env s) :=
  getitemAux_ok env stream hwf hs fuel 0 index hidx

/-- A 100 by 100 test image. -/
def imgA : Image := ⟨100, 100, false, false⟩

/-- A well-placed 20 by 30 test box. -/
def objA : ObjAnn := ⟨"s", 10, 30, 20, 50⟩

/-- A one-class test environment whose single annotation matches and
whose image loads locally. -/
def envA : Env :=
  ⟨["s"], [1], fun _ _ => ⟨"f", "n", [objA]⟩, fun _ => some imgA, fun _ => none,
   fun _ => false, fun _ => [], fun _ => false⟩

/-- All-zero draws, no flip. -/
def randA : Rand := ⟨0, 0, 0, 0, 0, false, 0, 0, 0, 0, 0⟩

/-- The crop rectangle body computes on envA with randA. -/
def rectA : Rect := ⟨35 / 4, 95 / 4, 125 / 4, 185 / 4⟩

/-- The sample body returns on envA with randA. -/
def sampleA : Sample :=
  { anchor := ⟨rectA, 0, false⟩
    pos := ⟨rectA, -15, false⟩
    neg := ⟨⟨0, 25 / 2, 15, 55 / 2⟩, 0, false⟩
    labels := [1]
    bbox := (0, 0, -(1 / 9), 1 / 3)
    bbox2 := (0, 0, -(1 / 9), 1 / 3) }

lemma body_envA : body envA randA 0 = .ok sampleA := by
  simp only [body, envA, randA, annOf, classOf, posInClass, cumsum, cumAt, searchsortedLeft,
    augment, cropStage, wOf, hOf, randint, retrieve, truthy, downloadedF, finishOk, mkOk,
    scaleOf, scaleLo, scaleHi, sfMinOf, sfMaxOf, xmidOf, ymidOf, sideOf, runiform, patchRect,
    bboxTarget, objBox, imgPath, mirror, imgA, objA, sampleA, rectA, Env.numClasses, Env.total,
    nth, List.find?, min_def, max_def]
  norm_num

lemma envA_wf : EnvWF envA := by
  refine ⟨rfl, fun cid pos img h o ho => ?_⟩
  have himg : img = imgA := by
    rcases h with h | h
    · simp [envA] at h
      exact h.symm
    · simp [envA] at h
  have ho2 : o = objA := by
    simpa [envA] using ho
  subst himg
  subst ho2
  refine ⟨by norm_num [objA], by norm_num [objA, imgA], by norm_num [objA],
    by norm_num [objA, imgA]⟩

lemma streamA_wf : StreamWF (fun _ => randA) := by
  intro n
  exact ⟨by norm_num [randA], by norm_num [randA]⟩

/-- Concrete application of getitem_total on the one-class test
environment with fuel 1 at index 0. -/
theorem getitem_total_apply :
    EnvWF envA ∧ StreamWF (fun _ => randA) ∧ 0 < envA.total ∧
    getitem envA (fun _ => randA) 1 0 ≠ RunResult.raise Err.indexError := by
  refine ⟨envA_wf, streamA_wf, by decide, ?_⟩
  exact (getitem_total envA (fun _ => randA) envA_wf streamA_wf 1 0 (by decide)).1
    Err.indexError

/-- C4: the anchor scale factor is drawn uniformly from the interval
[max(min(0.75, sf_max), sf_min), min(1.25, sf_max)], where
sf_min = max(7/width, 7/height) and sf_max equals
min(2 min(xmid, W - xmid), 2 min(ymid, H - ymid)) / side_len; and for
every box with sf_min <= 1 <= sf_max, every drawn scale factor lies in
[sf_min, sf_max]. -/
theorem scale_draw_range (o : ObjAnn) (W H t : ℚ) (hw : 0 < wOf o) (_hh : 0 < hOf o)
    (ht0 : 0 ≤ t) (ht1 : t ≤ 1) :
    sfMinOf o = max (7 / wOf o) (7 / hOf o) ∧
    sfMaxOf o W H =
      min (2 * min (xmidOf o) (W - xmidOf o)) (2 * min (ymidOf o) (H - ymidOf o)) / sideOf o ∧
    scaleOf o W H t =
      runiform (max (min (3 / 4) (sfMaxOf o W H)) (sfMinOf o)) (min (5 / 4) (sfMaxOf o W H)) t ∧
    (sfMinOf o ≤ 1 → 1 ≤ sfMaxOf o W H →
      sfMinOf o ≤ scaleOf o W H t ∧ scaleOf o W H t ≤ sfMaxOf o W H) := by
  refine ⟨rfl, ?_, rfl, ?_⟩
  · unfold sfMaxOf
    have h1 : 0 < sideOf o := lt_of_lt_of_le hw (le_max_left _ _)
    rw [← min_div_div_right (le_of_lt h1)]
    congr 1 <;> ring
  · intro h1 h2
    have hlo1 : min (3 / 4 : ℚ) (sfMaxOf o W H) = 3 / 4 := min_eq_left (by linarith)
    have hlo : scaleLo o W H = max (3 / 4) (sfMinOf o) := by
      unfold scaleLo
      rw [hlo1]
    have hlo2 : scaleLo o W H ≤ 1 := by
      rw [hlo]
      exact max_le (by norm_num) h1
    have hhi2 : 1 ≤ scaleHi o W H := le_min (by norm_num) h2
    have hord : scaleLo o W H ≤ scaleHi o W H := le_trans hlo2 hhi2
    have hmem1 : scaleLo o W H ≤ scaleOf o W H t := by
      unfold scaleOf runiform
      nlinarith
    have hmem2 : scaleOf o W H t ≤ scaleHi o W H := by
      unfold scaleOf runiform
      nlinarith
    constructor
    · exact le_trans (le_trans (le_max_right _ _) (le_of_eq hlo.symm)) hmem1
    · exact le_trans hmem2 (min_le_right _ _)

/-- Concrete application of scale_draw_range: a 10 by 10 box centred in
a 100 by 100 image, with the middle draw t = 1/2. -/
theorem scale_draw_range_apply :
    0 < wOf ⟨"o", 45, 55, 45, 55⟩ ∧
    sfMinOf ⟨"o", 45, 55, 45, 55⟩ ≤ scaleOf ⟨"o", 45, 55, 45, 55⟩ 100 100 (1 / 2) ∧
    scaleOf ⟨"o", 45, 55, 45, 55⟩ 100 100 (1 / 2) ≤ sfMaxOf ⟨"o", 45, 55, 45, 55⟩ 100 100 := by
  refine ⟨by norm_num [wOf], ?_⟩
  exact (scale_draw_range ⟨"o", 45, 55, 45, 55⟩ 100 100 (1 / 2) (by norm_num [wOf])
    (by norm_num [hOf]) (by norm_num) (by norm_num)).2.2.2
    (by norm_num [sfMinOf, wOf, hOf, max_def])
    (by norm_num [sfMaxOf, xmidOf, ymidOf, sideOf, wOf, hOf, min_def, max_def])

/-- C5: lines 121-126 are a code bug.  ImageOps.mirror flips the picture
horizontally, but the coordinate remap executes four sequential
assignments: after target_xmin = width - target_xmax, the next line
target_xmax = width - target_xmin reads the already rebound target_xmin,
leaving target_xmax unchanged (not width - old_xmin), and the horizontal
mirror also rewrites both y coordinates (ymin becomes height - old_ymax,
ymax stays old_ymax).  On box (10, 30, 20, 50) in a 100 by 100 image the
code produces (70, 30, 50, 50) - an inverted x-interval and a collapsed
y-interval - instead of the true mirror (70, 90, 20, 50); moreover the
crop rectangle stays centred at the pre-flip box centre (line 130 uses
the midpoint of lines 112-113), here x = 20, so anchors in the flipped
branch do not cover the mirrored box. -/
theorem flip_remap_eval :
    flipBox ⟨10, 30, 20, 50⟩ 100 100 = ⟨70, 30, 50, 50⟩ ∧
    flipBox ⟨10, 30, 20, 50⟩ 100 100 ≠ ⟨70, 90, 20, 50⟩ ∧
    (patchRect (xmidOf objA) (ymidOf objA) 10).xmin + (patchRect (xmidOf objA) (ymidOf objA) 10).xmax
      = 2 * 20 := by
  refine ⟨?_, ?_, ?_⟩
  · norm_num [flipBox]
  · intro h
    have h2 := congrArg Box.xmax h
    norm_num [flipBox] at h2
  · norm_num [patchRect, xmidOf, ymidOf, objA]

lemma randint_resample (env : Env) (j : ℕ) (htot : env.total ≠ 0) :
    ∃ k, k < env.total ∧ randint env j = .resample k := by
  refine ⟨j % env.total, Nat.mod_lt _ (Nat.pos_of_ne_zero htot), ?_⟩
  unfold randint
  rw [if_neg htot]

lemma augment_bad (env : Env) (r : Rand) (cid : ℕ) (synset : String) (ann : ImgAnn)
    (o : ObjAnn) (img : Image) (path : String) (dl : Bool) (htot : env.total ≠ 0)
    (hbad : wOf o < 7 ∨ hOf o < 7) :
    ∃ k, k < env.total ∧ augment env r cid synset ann o img path dl = .resample k := by
  unfold augment
  rw [if_pos hbad]
  exact randint_resample env r.jBadBox htot

lemma matched_find (env : Env) (index : ℕ) (synset : String) (o : ObjAnn)
    (hsyn : env.synsets[classOf env.synsetSizes index]? = some synset)
    (hobj : matchedObj env index = some o) :
    (annOf env index).objects.find? (fun x => x.name == synset) = some o := by
  unfold matchedObj synsetOf at hobj
  rw [hsyn] at hobj
  exact hobj

/-- C6: an object annotation whose box width or height is below 7 never
yields an output sample: whichever way the image was acquired, the body
resamples a fresh uniformly drawn global index (and never raises). -/
theorem degenerate_box_resample (env : Env) (r : Rand) (index : ℕ) (o : ObjAnn)
    (hlen : env.synsetSizes.length = env.synsets.length) (hidx : index < env.total)
    (hobj : matchedObj env index = some o) (hbad : wOf o < 7 ∨ hOf o < 7) :
    ∃ j, j < env.total ∧ body env r index = .resample j := by
  have htot : env.total ≠ 0 := by omega
  have hcid : classOf env.synsetSizes index < env.synsets.length := by
    have := classOf_lt env index hidx
    omega
  have hsome : env.synsets[classOf env.synsetSizes index]? =
      some env.synsets[classOf env.synsetSizes index] :=
    List.getElem?_eq_getElem hcid
  have hfind := matched_find env index _ o hsome hobj
  unfold body
  rw [hsome]
  dsimp only
  rw [hfind]
  cases hloc : env.localImage (imgPath (annOf env index)) with
  | some img => exact augment_bad env r _ _ _ o img _ false htot hbad
  | none =>
    dsimp only
    split
    · split
      · exact randint_resample env r.jRetryFail htot
      · rename_i img hdl
        split at hdl
        · exact augment_bad env r _ _ _ o img _ _ htot hbad
        · exact absurd hdl (by simp)
    · exact randint_resample env r.jDownloadFail htot

/-- The envA environment with a degenerate 3 by 30 box. -/
def envC : Env :=
  ⟨["s"], [1], fun _ _ => ⟨"f", "n", [⟨"s", 10, 13, 20, 50⟩]⟩, fun _ => some imgA,
   fun _ => none, fun _ => false, fun _ => [], fun _ => false⟩

/-- Concrete application of degenerate_box_resample: a box of width 3. -/
theorem degenerate_box_resample_apply :
    0 < envC.total ∧ matchedObj envC 0 = some ⟨"s", 10, 13, 20, 50⟩ ∧
    wOf ⟨"s", 10, 13, 20, 50⟩ < 7 ∧
    (∃ j, j < envC.total ∧ body envC randA 0 = StepResult.resample j) := by
  refine ⟨by decide, ?_, by norm_num [wOf], ?_⟩
  · simp [matchedObj, synsetOf, annOf, envC, classOf, posInClass, cumsum, cumAt,
      searchsortedLeft, nth, List.find?]
  · refine degenerate_box_resample envC randA 0 ⟨"s", 10, 13, 20, 50⟩ rfl (by decide) ?_
      (Or.inl (by norm_num [wOf]))
    simp [matchedObj, synsetOf, annOf, envC, classOf, posInClass, cumsum, cumAt,
      searchsortedLeft, nth, List.find?]

/-- C10: for any index at or past total_count (here with a non-empty
synset table), searchsorted returns the table length, so the synset
lookup of line 52 raises IndexError: the never-raises guarantee only
holds on [0, total_count), and the public interface does not check it. -/
theorem oob_index_raises (env : Env) (r : Rand) (index : ℕ) (_hne : env.synsets ≠ [])
    (hlen : env.synsetSizes.length = env.synsets.length) (hidx : env.total ≤ index) :
    body env r index = .raise .indexError := by
  have hcid : classOf env.synsetSizes index = (cumsum env.synsetSizes).length := by
    unfold classOf
    apply ss_eq_length
    intro k hk
    rw [length_cumsum] at hk
    rw [nth_cumsum _ _ hk]
    have h1 := cumAt_le_sum env.synsetSizes k
    unfold Env.total at hidx
    omega
  have hnone : env.synsets[classOf env.synsetSizes index]? = none := by
    rw [hcid, length_cumsum, hlen]
    exact List.getElem?_eq_none (le_refl _)
  unfold body
  rw [hnone]

/-- Concrete application of oob_index_raises: one class of one sample,
queried at index 1 = total_count. -/
theorem oob_index_raises_apply :
    envA.synsets ≠ [] ∧ envA.total ≤ 1 ∧
    body envA randA 1 = StepResult.raise Err.indexError := by
  refine ⟨by simp [envA], by decide, ?_⟩
  exact oob_index_raises envA randA 1 (by simp [envA]) rfl (by decide)

/-- C7: when the local image load fails, the body resamples a fresh
random global index whenever the URL-mapping fetch fails (lines 76-79;
the inner recursive sample is computed, found truthy, discarded, the
local load retried in vain, and the draw of line 101 used), whenever no
mapping line matches the filename or the download fails (line 89 or 88
then 96-97, using the draw of line 97), and whenever the retried local
load after a successful download still fails (lines 98-101); after a
successful download it retries the local load exactly once and proceeds
into augmentation with the downloaded image. -/
theorem remote_fetch_policy (env : Env) (r : Rand) (index : ℕ) (synset : String)
    (o : ObjAnn) (hidx : index < env.total)
    (hsyn : synsetOf env index = some synset) (hobj : matchedObj env index = some o)
    (hnone : env.localImage (imgPath (annOf env index)) = none) :
    (env.mappingOk synset = false →
      body env r index = .resample (r.jRetryFail % env.total)) ∧
    (env.mappingOk synset = true →
      (env.mappingEntries synset).find? (fun q => q.1 == (annOf env index).filename) = none →
      body env r index = .resample (r.jDownloadFail % env.total)) ∧
    (∀ q, env.mappingOk synset = true →
      (env.mappingEntries synset).find? (fun q2 => q2.1 == (annOf env index).filename) = some q →
      env.downloadOk q.2 = false →
      body env r index = .resample (r.jDownloadFail % env.total)) ∧
    (∀ q, env.mappingOk synset = true →
      (env.mappingEntries synset).find? (fun q2 => q2.1 == (annOf env index).filename) = some q →
      env.downloadOk q.2 = true →
      env.downloadedImage (imgPath (annOf env index)) = none →
      body env r index = .resample (r.jRetryFail % env.total)) ∧
    (∀ q img, env.mappingOk synset = true →
      (env.mappingEntries synset).find? (fun q2 => q2.1 == (annOf env index).filename) = some q →
      env.downloadOk q.2 = true →
      env.downloadedImage (imgPath (annOf env index)) = some img →
      body env r index = augment env r (classOf env.synsetSizes index) synset
        (annOf env index) o img (imgPath (annOf env index)) true) := by
  have htot : env.total ≠ 0 := by omega
  have hfind := matched_find env index synset o hsyn hobj
  have hsyn2 : env.synsets[classOf env.synsetSizes index]? = some synset := hsyn
  refine ⟨?_, ?_, ?_, ?_, ?_⟩
  · intro hmap
    unfold body
    rw [hsyn2]
    dsimp only
    rw [hfind, hnone]
    dsimp only
    simp [retrieve, hmap, truthy, downloadedF, hnone, randint, htot]
  · intro hmap hq
    unfold body
    rw [hsyn2]
    dsimp only
    rw [hfind, hnone]
    dsimp only
    simp [retrieve, hmap, hq, truthy, downloadedF, randint, htot]
  · intro q hmap hq hdown
    unfold body
    rw [hsyn2]
    dsimp only
    rw [hfind, hnone]
    dsimp only
    simp [retrieve, hmap, hq, hdown, truthy, downloadedF, randint, htot]
  · intro q hmap hq hdown hdl
    unfold body
    rw [hsyn2]
    dsimp only
    rw [hfind, hnone]
    dsimp only
    simp [retrieve, hmap, hq, hdown, hdl, truthy, downloadedF, randint, htot]
  · intro q img hmap hq hdown hdl
    unfold body
    rw [hsyn2]
    dsimp only
    rw [hfind, hnone]
    dsimp only
    simp [retrieve, hmap, hq, hdown, hdl, truthy, downloadedF]

/-- The envA environment with no locally loadable image and a broken
URL-mapping service. -/
def envB : Env :=
  ⟨["s"], [1], fun _ _ => ⟨"f", "n", [objA]⟩, fun _ => none, fun _ => none,
   fun _ => false, fun _ => [], fun _ => false⟩

/-- Concrete application of remote_fetch_policy: mapping fetch broken,
so the call resamples (here index 0 % 1 via the line-101 draw). -/
theorem remote_fetch_policy_apply :
    envB.localImage (imgPath (annOf envB 0)) = none ∧
    envB.mappingOk "s" = false ∧
    body envB randA 0 = StepResult.resample (randA.jRetryFail % envB.total) := by
  have hsyn : synsetOf envB 0 = some "s" := by
    simp [synsetOf, envB, classOf, cumsum, cumAt, searchsortedLeft, nth]
  have hobj : matchedObj envB 0 = some objA := by
    simp [matchedObj, synsetOf, annOf, envB, classOf, posInClass, cumsum, cumAt,
      searchsortedLeft, nth, List.find?, objA]
  exact ⟨rfl, rfl,
    (remote_fetch_policy envB randA 0 "s" objA (by decide) hsyn hobj rfl).1 rfl⟩

lemma finishOk_inv (env : Env) (r : Rand) (cid : ℕ) (o : ObjAnn) (img imgC : Image)
    (s : Sample) (h : finishOk env r cid o img imgC = .ok s) :
    sideOf o * scaleOf o img.width img.height r.u ≠ 0 ∧ s = mkOk env r cid o img imgC := by
  unfold finishOk at h
  split at h
  · simp at h
  · rename_i hP
    refine ⟨hP, ?_⟩
    have := h
    simp at this
    exact this.symm

lemma cropStage_inv (env : Env) (r : Rand) (cid : ℕ) (o : ObjAnn) (img imgF : Image)
    (synset filename path : String) (dl : Bool) (s : Sample)
    (h : cropStage env r cid o img imgF synset filename path dl = .ok s) :
    ∃ imgC, sideOf o * scaleOf o img.width img.height r.u ≠ 0 ∧
      s = mkOk env r cid o img imgC := by
  unfold cropStage at h
  split at h
  · split at h
    · unfold randint at h
      split at h <;> simp at h
    · rename_i img2 heq2
      split at h
      · unfold randint at h
        split at h <;> simp at h
      · exact ⟨img2, finishOk_inv env r cid o img img2 s h⟩
  · exact ⟨imgF, finishOk_inv env r cid o img imgF s h⟩

lemma augment_inv (env : Env) (r : Rand) (cid : ℕ) (synset : String) (ann : ImgAnn)
    (o : ObjAnn) (img : Image) (path : String) (dl : Bool) (s : Sample)
    (h : augment env r cid synset ann o img path dl = .ok s) :
    ¬(wOf o < 7 ∨ hOf o < 7) ∧
    ∃ imgC, sideOf o * scaleOf o img.width img.height r.u ≠ 0 ∧
      s = mkOk env r cid o img imgC := by
  unfold augment at h
  split at h
  · unfold randint at h
    split at h <;> simp at h
  · rename_i hgood
    exact ⟨hgood, cropStage_inv env r cid o img _ synset ann.filename path dl s h⟩

lemma body_ok_inv (env : Env) (r : Rand) (index : ℕ) (s : Sample)
    (h : body env r index = .ok s) :
    ∃ synset o img imgC,
      synsetOf env index = some synset ∧
      matchedObj env index = some o ∧
      (env.localImage (imgPath (annOf env index)) = some img ∨
       env.downloadedImage (imgPath (annOf env index)) = some img) ∧
      ¬(wOf o < 7 ∨ hOf o < 7) ∧
      sideOf o * scaleOf o img.width img.height r.u ≠ 0 ∧
      s = mkOk env r (classOf env.synsetSizes index) o img imgC := by
  unfold body at h
  cases hsyn : env.synsets[classOf env.synsetSizes index]? with
  | none =>
    rw [hsyn] at h
    simp at h
  | some synset =>
    rw [hsyn] at h
    dsimp only at h
    cases hfind : (annOf env index).objects.find? (fun o => o.name == synset) with
    | none =>
      rw [hfind] at h
      dsimp only at h
      unfold randint at h
      split at h <;> simp at h
    | some o =>
      rw [hfind] at h
      dsimp only at h
      have hobj : matchedObj env index = some o := by
        unfold matchedObj synsetOf
        rw [hsyn]
        exact hfind
      split at h
      · rename_i img hloc2
        obtain ⟨hgood, imgC, hP, hs⟩ := augment_inv env r _ synset _ o img _ false s h
        exact ⟨synset, o, img, imgC, hsyn, hobj, Or.inl hloc2, hgood, hP, hs⟩
      · split at h
        · split at h
          · unfold randint at h
            split at h <;> simp at h
          · rename_i img hdl
            obtain ⟨hgood, imgC, hP, hs⟩ := augment_inv env r _ synset _ o img _ _ s h
            split at hdl
            · exact ⟨synset, o, img, imgC, hsyn, hobj, Or.inr hdl, hgood, hP, hs⟩
            · exact ⟨synset, o, img, imgC, hsyn, hobj, Or.inl hdl, hgood, hP, hs⟩
        · unfold randint at h
          split at h <;> simp at h

lemma patchRect_side (xmid ymid P : ℚ) :
    (patchRect xmid ymid P).xmax - (patchRect xmid ymid P).xmin = P := by
  simp [patchRect]

/-- C3: whenever the body returns, the fifth and sixth components of the
tuple coincide and both equal the regression target (dx, dy, dw, dh)
computed by lines 146-149 from the coordinate variables in effect (the
flipped box when the flip fired), the annotation widths, the anchor crop
rectangle, and the anchor patch side length P. -/
theorem bbox_dup_formula (env : Env) (r : Rand) (index : ℕ) (s : Sample) (o : ObjAnn)
    (h : body env r index = .ok s) (hobj : matchedObj env index = some o) :
    s.bbox2 = s.bbox ∧
    ∃ img, (env.localImage (imgPath (annOf env index)) = some img ∨
            env.downloadedImage (imgPath (annOf env index)) = some img) ∧
      s.bbox = bboxTarget
        (if r.flip then flipBox (objBox o) img.width img.height else objBox o)
        (wOf o) (hOf o) s.anchor.rect (s.anchor.rect.xmax - s.anchor.rect.xmin) := by
  obtain ⟨synset, o2, img, imgC, _, hobj2, himg, _, _, hs⟩ := body_ok_inv env r index s h
  have ho : o2 = o := by
    rw [hobj] at hobj2
    exact ((Option.some.injEq _ _).mp hobj2).symm
  subst ho
  subst hs
  refine ⟨rfl, img, himg, ?_⟩
  show bboxTarget _ _ _ _ _ = _
  rw [show (mkOk env r (classOf env.synsetSizes index) o2 img imgC).anchor.rect =
      patchRect (xmidOf o2) (ymidOf o2)
        (sideOf o2 * scaleOf o2 img.width img.height r.u) from rfl]
  rw [patchRect_side]

/-- Concrete application of bbox_dup_formula on the envA evaluation. -/
theorem bbox_dup_formula_apply :
    body envA randA 0 = StepResult.ok sampleA ∧ matchedObj envA 0 = some objA ∧
    sampleA.bbox2 = sampleA.bbox := by
  have hobj : matchedObj envA 0 = some objA := by
    simp [matchedObj, synsetOf, annOf, envA, classOf, posInClass, cumsum, cumAt,
      searchsortedLeft, nth, List.find?, objA]
  exact ⟨body_envA, hobj, (bbox_dup_formula envA randA 0 sampleA objA body_envA hobj).1⟩

/-- The round-trip reconstruction stated by the spec: box centre = patch
centre + (dx, dy) * P and box extent = ((dw + 1) P, (dh + 1) P), read
back as corner coordinates. -/
def reconstruct (t : ℚ × ℚ × ℚ × ℚ) (rect : Rect) : Box :=
  let P := rect.xmax - rect.xmin
  let cx := (rect.xmin + rect.xmax) * (1 / 2) + t.1 * P
  let cy := (rect.ymin + rect.ymax) * (1 / 2) + t.2.1 * P
  let w := (t.2.2.1 + 1) * P
  let h := (t.2.2.2 + 1) * P
  ⟨cx - w * (1 / 2), cx + w * (1 / 2), cy - h * (1 / 2), cy + h * (1 / 2)⟩

lemma reconstruct_bboxTarget (o : ObjAnn) (P : ℚ) (hP : P ≠ 0) :
    reconstruct (bboxTarget (objBox o) (wOf o) (hOf o) (patchRect (xmidOf o) (ymidOf o) P) P)
      (patchRect (xmidOf o) (ymidOf o) P) = objBox o := by
  unfold reconstruct bboxTarget patchRect objBox wOf hOf xmidOf ymidOf
  simp only [Box.mk.injEq]
  refine ⟨?_, ?_, ?_, ?_⟩ <;> field_simp <;> ring

/-- C8 (amended): in the unflipped branch, inverting the emitted
regression target through the patch geometry reconstructs the annotated
box exactly (the arithmetic is exact over the rationals). -/
theorem roundtrip_unflipped (env : Env) (r : Rand) (index : ℕ) (s : Sample) (o : ObjAnn)
    (h : body env r index = .ok s) (hflip : r.flip = false)
    (hobj : matchedObj env index = some o) :
    reconstruct s.bbox s.anchor.rect = objBox o := by
  obtain ⟨synset, o2, img, imgC, _, hobj2, _, _, hP, hs⟩ := body_ok_inv env r index s h
  have ho : o2 = o := by
    rw [hobj] at hobj2
    exact ((Option.some.injEq _ _).mp hobj2).symm
  subst ho
  subst hs
  simp only [mkOk, hflip, Bool.false_eq_true, if_false]
  exact reconstruct_bboxTarget o2 _ hP

/-- Concrete application of roundtrip_unflipped on the envA evaluation. -/
theorem roundtrip_unflipped_apply :
    body envA randA 0 = StepResult.ok sampleA ∧ randA.flip = false ∧
    reconstruct sampleA.bbox sampleA.anchor.rect = objBox objA := by
  have hobj : matchedObj envA 0 = some objA := by
    simp [matchedObj, synsetOf, annOf, envA, classOf, posInClass, cumsum, cumAt,
      searchsortedLeft, nth, List.find?, objA]
  exact ⟨body_envA, rfl, roundtrip_unflipped envA randA 0 sampleA objA body_envA rfl hobj⟩

/-- All-zero draws with the flip firing. -/
def randF : Rand := ⟨0, 0, 0, 0, 0, true, 0, 0, 0, 0, 0⟩

/-- The sample body returns on envA with randF (flipped branch). -/
def sampleF : Sample :=
  { anchor := ⟨rectA, 0, true⟩
    pos := ⟨rectA, -15, true⟩
    neg := ⟨⟨0, 25 / 2, 15, 55 / 2⟩, 0, true⟩
    labels := [1]
    bbox := (4 / 3, 2 / 3, -(1 / 9), 1 / 3)
    bbox2 := (4 / 3, 2 / 3, -(1 / 9), 1 / 3) }

lemma body_envA_flip : body envA randF 0 = .ok sampleF := by
  simp only [body, envA, randF, annOf, classOf, posInClass, cumsum, cumAt, searchsortedLeft,
    augment, cropStage, wOf, hOf, randint, retrieve, truthy, downloadedF, finishOk, mkOk,
    scaleOf, scaleLo, scaleHi, sfMinOf, sfMaxOf, xmidOf, ymidOf, sideOf, runiform, patchRect,
    bboxTarget, objBox, flipBox, imgPath, mirror, imgA, objA, sampleF, rectA, Env.numClasses,
    Env.total, nth, List.find?, min_def, max_def]
  norm_num

/-- C8 (counterexample): in the flipped branch the round trip fails.  On
envA with the flip firing, the emitted target reconstructs the box
(40, 60, 35, 65), which is neither the annotated box (10, 30, 20, 50)
nor its true mirror (70, 90, 20, 50): the botched coordinate remap of
lines 123-126 puts the flipped-branch target off both. -/
theorem roundtrip_flip_cex :
    body envA randF 0 = StepResult.ok sampleF ∧
    reconstruct sampleF.bbox sampleF.anchor.rect = ⟨40, 60, 35, 65⟩ ∧
    reconstruct sampleF.bbox sampleF.anchor.rect ≠ objBox objA ∧
    reconstruct sampleF.bbox sampleF.anchor.rect ≠ ⟨70, 90, 20, 50⟩ := by
  have h1 : reconstruct sampleF.bbox sampleF.anchor.rect = ⟨40, 60, 35, 65⟩ := by
    norm_num [reconstruct, sampleF, rectA]
  refine ⟨body_envA_flip, h1, ?_, ?_⟩
  · rw [h1]
    intro hc
    have h2 := congrArg Box.xmin hc
    norm_num [objBox, objA] at h2
  · rw [h1]
    intro hc
    have h2 := congrArg Box.xmin hc
    norm_num at h2

/-- A well-formed 8 by 20 box close to the left image edge: its safe
scale range is inverted (sf_min = 7/8 exceeds sf_max = 2/5). -/
def obj9 : ObjAnn := ⟨"s", 0, 8, 40, 60⟩

/-- The envA environment with the edge-hugging box obj9. -/
def env9 : Env :=
  ⟨["s"], [1], fun _ _ => ⟨"f", "n", [obj9]⟩, fun _ => some imgA, fun _ => none,
   fun _ => false, fun _ => [], fun _ => false⟩

/-- The crop rectangle body computes on env9 with randA. -/
def rect9 : Rect := ⟨-(19 / 4), 165 / 4, 51 / 4, 235 / 4⟩

/-- The sample body returns on env9 with randA. -/
def sample9 : Sample :=
  { anchor := ⟨rect9, 0, false⟩
    pos := ⟨rect9, -15, false⟩
    neg := ⟨⟨0, 65 / 2, 35 / 2, 50⟩, 0, false⟩
    labels := [1]
    bbox := (0, 0, -(19 / 35), 1 / 7)
    bbox2 := (0, 0, -(19 / 35), 1 / 7) }

/-- C9 (counterexample): on the edge-hugging box obj9 the admissible
interval is inverted (sf_max = 2/5 < 7/8 = sf_min), yet the body does
not resample and does not raise: np.random.uniform silently draws from
the reversed interval and the crop is produced with scale factor 7/8,
strictly above sf_max. -/
theorem inverted_interval_cex :
    sfMinOf obj9 = 7 / 8 ∧ sfMaxOf obj9 100 100 = 2 / 5 ∧
    sfMaxOf obj9 100 100 < sfMinOf obj9 ∧
    body env9 randA 0 = StepResult.ok sample9 ∧
    sfMaxOf obj9 100 100 < scaleOf obj9 100 100 randA.u := by
  refine ⟨?_, ?_, ?_, ?_, ?_⟩
  · norm_num [sfMinOf, wOf, hOf, obj9, max_def]
  · norm_num [sfMaxOf, xmidOf, ymidOf, sideOf, wOf, hOf, obj9, min_def]
  · norm_num [sfMaxOf, sfMinOf, xmidOf, ymidOf, sideOf, wOf, hOf, obj9, min_def, max_def]
  · simp only [body, env9, randA, annOf, classOf, posInClass, cumsum, cumAt, searchsortedLeft,
      augment, cropStage, wOf, hOf, randint, retrieve, truthy, downloadedF, finishOk, mkOk,
      scaleOf, scaleLo, scaleHi, sfMinOf, sfMaxOf, xmidOf, ymidOf, sideOf, runiform, patchRect,
      bboxTarget, objBox, imgPath, mirror, imgA, obj9, sample9, rect9, Env.numClasses,
      Env.total, nth, List.find?, min_def, max_def]
    norm_num
  · norm_num [scaleOf, scaleLo, scaleHi, runiform, sfMaxOf, sfMinOf, xmidOf, ymidOf, sideOf,
      wOf, hOf, obj9, randA, min_def, max_def]

/-- C9 (amended): when the interval is inverted in the claimed sense
(sf_min > sf_max), the code has no guard: the body neither resamples nor
raises a numeric error - it returns a sample whose scale factor is the
uniform draw over the reversed interval, a value necessarily outside the
(empty) admissible range [sf_min, sf_max], and strictly above sf_max for
the draw at the lower unit parameter. -/
theorem inverted_interval_amended (env : Env) (r : Rand) (index : ℕ) (synset : String)
    (o : ObjAnn) (img : Image)
    (hsyn : synsetOf env index = some synset) (hobj : matchedObj env index = some o)
    (hloc : env.localImage (imgPath (annOf env index)) = some img)
    (hgood : ¬(wOf o < 7 ∨ hOf o < 7)) (hb : boxIn o img) (hnb : img.bombs = false)
    (hinv : sfMaxOf o img.width img.height < sfMinOf o)
    (ht0 : 0 ≤ r.u) (ht1 : r.u ≤ 1) :
    body env r index = .ok (mkOk env r (classOf env.synsetSizes index) o img
      (if r.flip then mirror img else img)) ∧
    scaleOf o img.width img.height r.u =
      runiform (scaleLo o img.width img.height) (scaleHi o img.width img.height) r.u ∧
    ¬(sfMinOf o ≤ scaleOf o img.width img.height r.u ∧
      scaleOf o img.width img.height r.u ≤ sfMaxOf o img.width img.height) ∧
    (r.u = 0 → sfMaxOf o img.width img.height < scaleOf o img.width img.height r.u) := by
  have hfind := matched_find env index synset o hsyn hobj
  have hgood2 := hgood
  push_neg at hgood2
  have hP : sideOf o * scaleOf o img.width img.height r.u ≠ 0 := by
    obtain ⟨hbx0, hbxW, hby0, hbyH⟩ := hb
    exact ne_of_gt (scale_pos o img.width img.height r.u hgood2.1 hgood2.2
      hbx0 hbxW hby0 hbyH ht0 ht1)
  refine ⟨?_, rfl, ?_, ?_⟩
  · have hsyn2 : env.synsets[classOf env.synsetSizes index]? = some synset := hsyn
    unfold body
    rw [hsyn2]
    dsimp only
    rw [hfind, hloc]
    have hnb2 : (if r.flip then mirror img else img).bombs = false := by
      cases hf : r.flip <;> simp [mirror, hnb]
    simp only [augment, cropStage, finishOk, hnb2, if_neg hgood, if_neg hP,
      Bool.false_eq_true, if_false]
  · intro hc
    linarith [hc.1, hc.2]
  · intro hu
    have hz : scaleOf o img.width img.height r.u = scaleLo o img.width img.height := by
      unfold scaleOf runiform
      rw [hu]
      ring
    rw [hz]
    exact lt_of_lt_of_le hinv (le_max_right _ _)

/-- Concrete application of inverted_interval_amended on env9: the drawn
scale factor lies outside [sf_min, sf_max]. -/
theorem inverted_interval_amended_apply :
    sfMaxOf obj9 100 100 < sfMinOf obj9 ∧
    ¬(sfMinOf obj9 ≤ scaleOf obj9 100 100 randA.u ∧
      scaleOf obj9 100 100 randA.u ≤ sfMaxOf obj9 100 100) := by
  have hsyn : synsetOf env9 0 = some "s" := by
    simp [synsetOf, env9, classOf, cumsum, cumAt, searchsortedLeft, nth]
  have hobj : matchedObj env9 0 = some obj9 := by
    simp [matchedObj, synsetOf, annOf, env9, classOf, posInClass, cumsum, cumAt,
      searchsortedLeft, nth, List.find?, obj9]
  have hinv : sfMaxOf obj9 imgA.width imgA.height < sfMinOf obj9 := by
    norm_num [sfMaxOf, sfMinOf, xmidOf, ymidOf, sideOf, wOf, hOf, obj9, imgA, min_def, max_def]
  refine ⟨hinv, ?_⟩
  exact (inverted_interval_amended env9 randA 0 "s" obj9 imgA hsyn hobj rfl
    (by norm_num [wOf, hOf, obj9]) (by norm_num [boxIn, obj9, imgA]) rfl hinv
    (by norm_num [randA]) (by norm_num [randA])).2.2.1

end SDFCF
